import Mathlib

/-
  Verification of the baton relay (stdin/stdout to Windows named pipe or
  Assuan TCP socket bridge).

  Shallow embedding conventions:
  * Machine-level I/O is modelled by scripts: a pump's reads are a list of
    `ReadEvent` (the successive results of `read` calls) and its writes
    consume a list of `WriteResult` (the successive results of the fallible
    write-side operations, in program order).  An exhausted script means the
    real program would block in the corresponding call, which the model
    reports as the `blocked` outcome.
  * `std::io::Error` is modelled by `IOError`, carrying the error kind and
    the optional raw OS code, the only two observations the program makes.
  * `std::process::exit(code)` is modelled by the `procExit code` outcome.
  * The two relay pumps share `RelayState`; `run_relay` sequentialises the
    two threads by running Pump B (the calling thread) to completion and
    then Pump A on the resulting state.  This is sound for the properties
    proved here: `pipe_to_stdout` never loads the shared flags, so its
    outcome — the value `run_relay` returns — is the same under every
    interleaving, and the monotonicity of the flags is proved for each pump
    from an arbitrary starting state.
-/

namespace Baton

/-- Error kinds of `std::io::Error` distinguished by the program
(`ErrorKind::BrokenPipe` in `is_broken_pipe`, plus representatives used by
the tests: `NotFound`, `ConnectionRefused`); every other kind is `other`. -/
inductive ErrorKind where
  | brokenPipe
  | notFound
  | connectionRefused
  | other
deriving DecidableEq, Repr

/-- Model of `std::io::Error`: the program only ever inspects `kind()` and
`raw_os_error()`. -/
structure IOError where
  kind : ErrorKind
  raw_os_error : Option Nat
deriving DecidableEq, Repr

/-- Partial map from Windows `GetLastError` codes to the Rust `ErrorKind`
produced by `io::Error::from_raw_os_error`; only the codes this development
uses are mapped, all others go to `other`. -/
def osCodeKind (c : Nat) : ErrorKind :=
  if c = 2 then ErrorKind.notFound
  else if c = 109 then ErrorKind.brokenPipe
  else ErrorKind.other

/-- Model of `io::Error::from_raw_os_error(c)`. -/
def ioErrFromRaw (c : Nat) : IOError :=
  { kind := osCodeKind c, raw_os_error := some c }

/-- The `BatonError` enum of `src/errors.rs`. -/
inductive BatonError where
  | PipeConnection (e : IOError)
  | PollingLimitReached (attempts : Nat)
  | AssuanParse (reason : String)
  | AssuanConnection (e : IOError)
  | Io (e : IOError)
deriving DecidableEq, Repr

/-- Display strings of `BatonError` as generated by the `thiserror`
attributes in `src/errors.rs` (the inner source error is elided, since
`IOError` carries no message text). -/
def BatonError.display : BatonError → String
  | BatonError.PipeConnection _ => "Failed to connect to named pipe"
  | BatonError.PollingLimitReached n =>
      "Polling limit reached after " ++ toString n ++ " attempts"
  | BatonError.AssuanParse r => "Failed to parse Assuan socket file: " ++ r
  | BatonError.AssuanConnection _ => "Failed to connect to Assuan TCP socket"
  | BatonError.Io _ => "I/O error"

/-- The predicate `is_broken_pipe` of `src/relay.rs` lines 157-161. -/
def is_broken_pipe (e : IOError) : Bool :=
  (match e.kind with
   | ErrorKind.brokenPipe => true
   | _ => false)
  || e.raw_os_error == some 109
  || e.raw_os_error == some 233

/-- The `RelayState` struct of `src/relay.rs`: two shared boolean flags. -/
structure RelayState where
  stdin_done : Bool
  pipe_done : Bool
deriving DecidableEq, Repr

/-- Constructor `RelayState::new`. -/
def RelayState.new : RelayState :=
  { stdin_done := false, pipe_done := false }

/-- The `Config` struct of `src/cli.rs`. -/
structure Config where
  pipe_name : String
  poll : Bool
  limited_poll : Bool
  send_zero : Bool
  exit_on_pipe_eof : Bool
  exit_on_stdin_eof : Bool
  bg : Bool
  assuan : Bool
  verbose : Bool
deriving DecidableEq, Repr

/-- One result of a `read` call in a pump's script: `ok []` is a 0-byte
read (EOF), `ok data` with `data` nonempty is a successful data read, and
`err e` is a failed read. -/
inductive ReadEvent where
  | ok (data : List Nat)
  | err (e : IOError)
deriving DecidableEq, Repr

/-- One result of a fallible write-side operation (a `write_all`, `write`
or `flush`) in a pump's script. -/
inductive WriteResult where
  | ok
  | err (e : IOError)
deriving DecidableEq, Repr

/-- How a pump run ends: `ret none` models returning `Ok(())`, `ret (some e)`
models returning `Err(e)`, `procExit c` models `std::process::exit(c)`, and
`blocked` means the script ran out while the pump would block in a call. -/
inductive PumpOutcome where
  | ret (e : Option IOError)
  | procExit (code : Nat)
  | blocked
deriving DecidableEq, Repr

/-- Result of a run of `stdin_to_pipe`: final shared state, outcome, and the
list of buffers successfully handed to the peer writer (a `[]` entry is the
zero-byte message). -/
structure PumpAResult where
  state : RelayState
  outcome : PumpOutcome
  writes : List (List Nat)
deriving DecidableEq, Repr

/-- Result of a run of `pipe_to_stdout`: final shared state, outcome, and
the list of buffers fully written to stdout. -/
structure PumpBResult where
  state : RelayState
  outcome : PumpOutcome
  writes : List (List Nat)
deriving DecidableEq, Repr

/-- Pump A, `stdin_to_pipe` of `src/relay.rs` lines 58-111.  Each loop
iteration first loads `pipe_done`; then the next stdin read event is
consumed.  On `Ok(0)` it stores `stdin_done := true`, performs one
zero-byte write when `send_zero` (whose error is only logged: the model
consumes the scripted result and ignores it), then exits the process when
`exit_immediately` and otherwise breaks with `Ok(())`.  On `Ok(n)` the
`write_all` consumes one write result: a broken-pipe-class failure stores
`pipe_done := true` and breaks with `Ok(())`, any other failure is returned.
On a read error it stores `stdin_done := true` and breaks with `Ok(())`. -/
def stdin_to_pipe (send_zero exit_immediately : Bool) :
    RelayState → List ReadEvent → List WriteResult → PumpAResult
  | state, evs, ws =>
    if state.pipe_done then { state := state, outcome := PumpOutcome.ret none, writes := [] }
    else
      match evs with
      | [] => { state := state, outcome := PumpOutcome.blocked, writes := [] }
      | ReadEvent.ok [] :: _ =>
        let st : RelayState := { state with stdin_done := true }
        match send_zero, ws with
        | true, [] => { state := st, outcome := PumpOutcome.blocked, writes := [] }
        | true, _ :: _ =>
          if exit_immediately then { state := st, outcome := PumpOutcome.procExit 0, writes := [[]] }
          else { state := st, outcome := PumpOutcome.ret none, writes := [[]] }
        | false, _ =>
          if exit_immediately then { state := st, outcome := PumpOutcome.procExit 0, writes := [] }
          else { state := st, outcome := PumpOutcome.ret none, writes := [] }
      | ReadEvent.ok (b :: bs) :: evs' =>
        match ws with
        | [] => { state := state, outcome := PumpOutcome.blocked, writes := [] }
        | WriteResult.ok :: ws' =>
          let r := stdin_to_pipe send_zero exit_immediately state evs' ws'
          { state := r.state, outcome := r.outcome, writes := (b :: bs) :: r.writes }
        | WriteResult.err e :: _ =>
          if is_broken_pipe e then
            { state := { state with pipe_done := true }, outcome := PumpOutcome.ret none, writes := [] }
          else { state := state, outcome := PumpOutcome.ret (some e), writes := [] }
      | ReadEvent.err _ :: _ =>
        { state := { state with stdin_done := true }, outcome := PumpOutcome.ret none, writes := [] }

/-- Pump B, `pipe_to_stdout` of `src/relay.rs` lines 113-155.  Each loop
iteration consumes the next peer read event.  On `Ok(0)` it stores
`pipe_done := true` and exits the process when `exit_immediately`, else
breaks with `Ok(())`.  On `Ok(n)` the `write_all` to stdout and then the
`flush` each consume one write result, and any failure of either is
returned unconditionally (the source uses plain `?` on lines 135-136).  On
a read error, a broken-pipe-class error stores `pipe_done := true` and
terminates like EOF, any other read error is returned. -/
def pipe_to_stdout (exit_immediately : Bool) :
    RelayState → List ReadEvent → List WriteResult → PumpBResult
  | state, evs, ws =>
    match evs with
    | [] => { state := state, outcome := PumpOutcome.blocked, writes := [] }
    | ReadEvent.ok [] :: _ =>
      let st : RelayState := { state with pipe_done := true }
      if exit_immediately then { state := st, outcome := PumpOutcome.procExit 0, writes := [] }
      else { state := st, outcome := PumpOutcome.ret none, writes := [] }
    | ReadEvent.ok (b :: bs) :: evs' =>
      match ws with
      | [] => { state := state, outcome := PumpOutcome.blocked, writes := [] }
      | WriteResult.err e :: _ =>
        { state := state, outcome := PumpOutcome.ret (some e), writes := [] }
      | WriteResult.ok :: ws' =>
        match ws' with
        | [] => { state := state, outcome := PumpOutcome.blocked, writes := [b :: bs] }
        | WriteResult.err e :: _ =>
          { state := state, outcome := PumpOutcome.ret (some e), writes := [b :: bs] }
        | WriteResult.ok :: ws'' =>
          let r := pipe_to_stdout exit_immediately state evs' ws''
          { state := r.state, outcome := r.outcome, writes := (b :: bs) :: r.writes }
    | ReadEvent.err e :: _ =>
      if is_broken_pipe e then
        let st : RelayState := { state with pipe_done := true }
        if exit_immediately then { state := st, outcome := PumpOutcome.procExit 0, writes := [] }
        else { state := st, outcome := PumpOutcome.ret none, writes := [] }
      else { state := state, outcome := PumpOutcome.ret (some e), writes := [] }

/-- Result of a `run_relay` run: `result` is the value the function
returns, `pumpA` is the joined Pump A result (`none` when
`exit_on_pipe_eof` skips the join), `pumpB` is the Pump B result. -/
structure RelayRun where
  result : PumpOutcome
  pumpA : Option PumpAResult
  pumpB : PumpBResult
deriving DecidableEq, Repr

/-- The orchestrator `run_relay` of `src/relay.rs` lines 29-56: create a
fresh `RelayState`, spawn Pump A, run Pump B on the calling thread, join
Pump A (discarding its result: `let _ = stdin_thread.join()`) unless
`exit_on_pipe_eof`, and return Pump B's result.  The model schedules Pump A
after Pump B; see the header comment for why this is faithful for the
properties proved here. -/
def run_relay (config : Config) (pipeEvents : List ReadEvent)
    (stdoutResults : List WriteResult) (stdinEvents : List ReadEvent)
    (pipeWriteResults : List WriteResult) : RelayRun :=
  let state := RelayState.new
  let b := pipe_to_stdout config.exit_on_pipe_eof state pipeEvents stdoutResults
  let a := stdin_to_pipe config.send_zero config.exit_on_stdin_eof b.state stdinEvents pipeWriteResults
  { result := b.outcome,
    pumpA := if config.exit_on_pipe_eof then none else some a,
    pumpB := b }

/-- Spec-side characterisation (from the spec's words in section 4.5 and
section 7) of the first reader-side operation of Pump B that fails in a
non-terminal way: scanning the peer-read events in order, peer EOF and
broken-pipe-class peer-read errors are terminal (no error), a
non-broken-pipe peer-read error is a non-terminal reader-side failure, and
any stdout `write_all` or `flush` failure is a non-terminal reader-side
failure. -/
def firstReaderFailure : List ReadEvent → List WriteResult → Option IOError
  | [], _ => none
  | ReadEvent.ok [] :: _, _ => none
  | ReadEvent.ok (_ :: _) :: evs, ws =>
    match ws with
    | [] => none
    | WriteResult.err e :: _ => some e
    | WriteResult.ok :: ws' =>
      match ws' with
      | [] => none
      | WriteResult.err e :: _ => some e
      | WriteResult.ok :: ws'' => firstReaderFailure evs ws''
  | ReadEvent.err e :: _, _ => if is_broken_pipe e then none else some e

/-- Constant `MAX_POLL_ATTEMPTS` shared by `src/win/pipe.rs` and
`src/assuan.rs`. -/
def MAX_POLL_ATTEMPTS : Nat := 300

/-- Constant `POLL_INTERVAL_MS` shared by `src/win/pipe.rs` and
`src/assuan.rs`: milliseconds slept between connect attempts. -/
def POLL_INTERVAL_MS : Nat := 200

/-- Value of `u32::MAX`, the attempt cap used when `limited_poll` is off. -/
def U32_MAX : Nat := 4294967295

/-- One scripted outcome of a connect attempt (a `CreateFileW` call in the
named-pipe branch, a `TcpStream::connect` call in the Assuan branch):
either success, or failure.  For `CreateFileW`, failure carries the
`GetLastError` code; for TCP, the model stores the `io::Error` via
`ioErrFromRaw` of an arbitrary code, which an `err` entry also denotes. -/
inductive ConnectAttempt where
  | ok
  | err (code : Nat)
deriving DecidableEq, Repr

/-- Outcome of a connect loop: connection established, a typed error, or
the attempt script was exhausted (the real loop would keep sleeping and
retrying beyond the scripted prefix). -/
inductive ConnectOutcome where
  | connected
  | failed (e : BatonError)
  | outOfScript
deriving DecidableEq, Repr

/-- Loop body of `NamedPipe::connect` in `src/win/pipe.rs` lines 41-81,
with `attempts` the counter value on entry.  On a failed `CreateFileW`,
read the last error; it is retryable iff it is `ERROR_FILE_NOT_FOUND` (2)
or `ERROR_PIPE_BUSY` (231); if polling is off or the error is not
retryable, fail with `PipeConnection`; otherwise increment the counter,
fail with `PollingLimitReached` once it reaches `max_attempts`, else sleep
200 ms and retry. -/
def pipe_connect_go (poll : Bool) (max_attempts : Nat) :
    Nat → List ConnectAttempt → ConnectOutcome
  | _, [] => ConnectOutcome.outOfScript
  | attempts, a :: rest =>
    match a with
    | ConnectAttempt.ok => ConnectOutcome.connected
    | ConnectAttempt.err code =>
      let is_retryable := code == 2 || code == 231
      if !poll || !is_retryable then
        ConnectOutcome.failed (BatonError.PipeConnection (ioErrFromRaw code))
      else
        let attempts' := attempts + 1
        if max_attempts ≤ attempts' then
          ConnectOutcome.failed (BatonError.PollingLimitReached attempts')
        else pipe_connect_go poll max_attempts attempts' rest

/-- Entry of `NamedPipe::connect` (`src/win/pipe.rs` lines 30-82): the cap
is `MAX_POLL_ATTEMPTS` when `limited_poll`, else `u32::MAX`, and the loop
starts with the counter at 0. -/
def NamedPipe.connect (config : Config) (script : List ConnectAttempt) : ConnectOutcome :=
  let max_attempts := if config.limited_poll then MAX_POLL_ATTEMPTS else U32_MAX
  pipe_connect_go config.poll max_attempts 0 script

/-- One scripted outcome of a `TcpStream::connect` call in the Assuan
branch: success, or failure with an arbitrary `io::Error` (any kind, any
optional raw code). -/
inductive TcpAttempt where
  | ok
  | err (e : IOError)
deriving DecidableEq, Repr

/-- Loop body of `connect_with_retry` in `src/assuan.rs` lines 60-86: on a
failed `TcpStream::connect`, if polling is off fail immediately with
`AssuanConnection` wrapping the error — there is no retryability test —
otherwise increment the counter, fail with `PollingLimitReached` once it
reaches `max_attempts`, else sleep 200 ms and retry. -/
def assuan_connect_go (poll : Bool) (max_attempts : Nat) :
    Nat → List TcpAttempt → ConnectOutcome
  | _, [] => ConnectOutcome.outOfScript
  | attempts, a :: rest =>
    match a with
    | TcpAttempt.ok => ConnectOutcome.connected
    | TcpAttempt.err e =>
      if !poll then
        ConnectOutcome.failed (BatonError.AssuanConnection e)
      else
        let attempts' := attempts + 1
        if max_attempts ≤ attempts' then
          ConnectOutcome.failed (BatonError.PollingLimitReached attempts')
        else assuan_connect_go poll max_attempts attempts' rest

/-- Entry of `connect_with_retry` (`src/assuan.rs` lines 53-87): same cap
computation as the named-pipe branch, counter starts at 0. -/
def connect_with_retry (config : Config) (script : List TcpAttempt) : ConnectOutcome :=
  let max_attempts := if config.limited_poll then MAX_POLL_ATTEMPTS else U32_MAX
  assuan_connect_go config.poll max_attempts 0 script

/-- Constant `NONCE_SIZE` of `src/assuan.rs`. -/
def NONCE_SIZE : Nat := 16

/-- Model of `BufRead::read_line`'s byte consumption: split the input at
the first newline byte (10), the newline included in the line; at EOF the
remaining bytes form the line.  Returns (line, rest). -/
def read_line_bytes : List Nat → List Nat × List Nat
  | [] => ([], [])
  | b :: rest =>
    if b = 10 then ([10], rest)
    else
      let p := read_line_bytes rest
      (b :: p.1, p.2)

/-- UTF-8 validity automaton, per RFC 3629 (the check `BufRead::read_line`
performs on the bytes of the line; an invalid line makes `read_line` return
an `InvalidData` error).  The first argument is the list of inclusive byte
ranges the next input bytes must fall in to finish the current multi-byte
sequence; from the empty state, a lead byte pushes the ranges of its
continuation bytes (with the narrowed first-continuation ranges of lead
bytes E0, ED, F0 and F4). -/
def utf8ValidGo : List (Nat × Nat) → List Nat → Bool
  | [], [] => true
  | _ :: _, [] => false
  | (lo, hi) :: need, b :: rest =>
    (lo ≤ b && b ≤ hi) && utf8ValidGo need rest
  | [], b :: rest =>
    if b ≤ 127 then utf8ValidGo [] rest
    else if 194 ≤ b && b ≤ 223 then utf8ValidGo [(128, 191)] rest
    else if 224 ≤ b && b ≤ 239 then
      utf8ValidGo [(if b = 224 then 160 else 128, if b = 237 then 159 else 191), (128, 191)] rest
    else if 240 ≤ b && b ≤ 244 then
      utf8ValidGo [(if b = 240 then 144 else 128, if b = 244 then 143 else 191), (128, 191), (128, 191)] rest
    else false

/-- UTF-8 validity of a byte sequence: run the automaton from the state
with no pending continuation bytes. -/
def utf8Valid (l : List Nat) : Bool := utf8ValidGo [] l

/-- Model of `trim_end_matches(|c| c == '\r' || c == '\n')`: remove every
trailing carriage-return (13) or newline (10) byte. -/
def trimEndCRLF (l : List Nat) : List Nat :=
  (l.reverse.dropWhile (fun b => b == 13 || b == 10)).reverse

/-- ASCII decimal digit test on a byte. -/
def isDigitByte (b : Nat) : Bool := 48 ≤ b && b ≤ 57

/-- Value of a most-significant-first list of ASCII digit bytes. -/
def digitsVal (l : List Nat) : Nat :=
  l.foldl (fun a b => a * 10 + (b - 48)) 0

/-- Strip one optional leading plus sign (byte 43), as `u16::from_str`
accepts. -/
def stripPlus : List Nat → List Nat
  | [] => []
  | b :: r => if b = 43 then r else b :: r

/-- Model of `str::parse::<u16>()` on the bytes of the (UTF-8 valid)
string: after an optional leading plus the input must be nonempty and all
ASCII digits, and the value must fit in 16 bits; non-ASCII characters
begin with bytes above 127 and fail the digit test exactly as their
decoded characters fail Rust's digit test. -/
def parse_u16 (l : List Nat) : Option Nat :=
  let t := stripPlus l
  match t with
  | [] => none
  | _ :: _ =>
    if t.all isDigitByte then
      if digitsVal t ≤ 65535 then some (digitsVal t) else none
    else none

/-- The function `parse_assuan_file` of `src/assuan.rs` lines 31-51, with
the file contents abstracted as `none` (the open fails) or `some bytes`.
In order: open the file, read the first line (an invalid-UTF-8 line makes
`read_line` fail), trim trailing CR/LF, parse the port as `u16`, then
`read_exact` 16 nonce bytes; each failure is wrapped in `AssuanParse` with
a human-readable cause (the model keeps the static part of each message). -/
def parse_assuan_file (file : Option (List Nat)) :
    Except BatonError (Nat × List Nat) :=
  match file with
  | none => Except.error (BatonError.AssuanParse "cannot open file")
  | some bytes =>
    let lr := read_line_bytes bytes
    if utf8Valid lr.1 = false then
      Except.error (BatonError.AssuanParse "cannot read port line")
    else
      match parse_u16 (trimEndCRLF lr.1) with
      | none => Except.error (BatonError.AssuanParse "invalid port number")
      | some port =>
        if lr.2.length < NONCE_SIZE then
          Except.error (BatonError.AssuanParse "cannot read nonce (need 16 bytes)")
        else Except.ok (port, lr.2.take NONCE_SIZE)

/-- Little-endian decimal digits of `n`, with explicit fuel for structural
recursion; `natDigits` below supplies fuel `n`. -/
def natDigitsAux : Nat → Nat → List Nat
  | 0, _ => []
  | _ + 1, 0 => []
  | fuel + 1, n + 1 => ((n + 1) % 10) :: natDigitsAux fuel ((n + 1) / 10)

/-- Little-endian decimal digits of `n` (empty for 0). -/
def natDigits (n : Nat) : List Nat := natDigitsAux n n

/-- Spec-side rendering of a port as the ASCII decimal digits of `p`
(most significant first, `"0"` for zero), the first line of a rendezvous
file as the spec's section 4.4 describes it. -/
def portBytes (p : Nat) : List Nat :=
  if p = 0 then [48] else ((natDigits p).reverse.map (fun d => d + 48))

end Baton


namespace Baton

theorem pipeB_outcome_err_iff (ei : Bool) (st : RelayState) (evs : List ReadEvent)
    (ws : List WriteResult) (e : IOError) :
    (pipe_to_stdout ei st evs ws).outcome = PumpOutcome.ret (some e) ↔
      firstReaderFailure evs ws = some e := by
  induction evs generalizing ws with
  | nil => simp [pipe_to_stdout, firstReaderFailure]
  | cons hd tl ih =>
    cases hd with
    | ok data =>
      cases data with
      | nil =>
        cases ei <;> simp [pipe_to_stdout, firstReaderFailure]
      | cons b bs =>
        cases ws with
        | nil => simp [pipe_to_stdout, firstReaderFailure]
        | cons w ws' =>
          cases w with
          | err e' => simp [pipe_to_stdout, firstReaderFailure]
          | ok =>
            cases ws' with
            | nil => simp [pipe_to_stdout, firstReaderFailure]
            | cons w2 ws'' =>
              cases w2 with
              | err e' => simp [pipe_to_stdout, firstReaderFailure]
              | ok =>
                rw [pipe_to_stdout, firstReaderFailure]
                exact ih ws''
    | err e' =>
      by_cases h : is_broken_pipe e' = true
      · cases ei <;> simp [pipe_to_stdout, firstReaderFailure, h]
      · simp only [Bool.not_eq_true] at h
        simp [pipe_to_stdout, firstReaderFailure, h]

end Baton

namespace Baton

theorem stdin_to_pipe_mono_stdin (sz ei : Bool) (st : RelayState)
    (evs : List ReadEvent) (ws : List WriteResult) (h : st.stdin_done = true) :
    (stdin_to_pipe sz ei st evs ws).state.stdin_done = true := by
  induction evs generalizing ws with
  | nil =>
    by_cases hpd : st.pipe_done = true <;> simp [stdin_to_pipe, hpd, h]
  | cons hd tl ih =>
    cases hd with
    | ok data =>
      cases data with
      | nil =>
        cases sz <;> cases ws <;> cases ei <;>
          by_cases hpd : st.pipe_done = true <;>
            simp [stdin_to_pipe, hpd, h]
      | cons b bs =>
        cases ws with
        | nil =>
          by_cases hpd : st.pipe_done = true <;> simp [stdin_to_pipe, hpd, h]
        | cons w ws' =>
          cases w with
          | ok =>
            by_cases hpd : st.pipe_done = true
            · simp [stdin_to_pipe, hpd, h]
            · simp only [Bool.not_eq_true] at hpd
              simp only [stdin_to_pipe, hpd, Bool.false_eq_true, if_false]
              exact ih ws'
          | err e =>
            by_cases hpd : st.pipe_done = true <;>
              by_cases hbp : is_broken_pipe e = true <;>
                simp [stdin_to_pipe, hpd, hbp, h]
    | err e =>
      by_cases hpd : st.pipe_done = true <;> simp [stdin_to_pipe, hpd, h]

theorem stdin_to_pipe_mono_pipe (sz ei : Bool) (st : RelayState)
    (evs : List ReadEvent) (ws : List WriteResult) (h : st.pipe_done = true) :
    (stdin_to_pipe sz ei st evs ws).state.pipe_done = true := by
  cases evs with
  | nil => simp [stdin_to_pipe, h]
  | cons hd tl =>
    cases hd with
    | ok data =>
      cases data with
      | nil => simp [stdin_to_pipe, h]
      | cons b bs => simp [stdin_to_pipe, h]
    | err e => simp [stdin_to_pipe, h]

theorem pipe_to_stdout_mono_stdin (ei : Bool) (st : RelayState)
    (evs : List ReadEvent) (ws : List WriteResult) (h : st.stdin_done = true) :
    (pipe_to_stdout ei st evs ws).state.stdin_done = true := by
  induction evs generalizing ws with
  | nil => simp [pipe_to_stdout, h]
  | cons hd tl ih =>
    cases hd with
    | ok data =>
      cases data with
      | nil => cases ei <;> simp [pipe_to_stdout, h]
      | cons b bs =>
        cases ws with
        | nil => simp [pipe_to_stdout, h]
        | cons w ws' =>
          cases w with
          | err e => simp [pipe_to_stdout, h]
          | ok =>
            cases ws' with
            | nil => simp [pipe_to_stdout, h]
            | cons w2 ws'' =>
              cases w2 with
              | err e => simp [pipe_to_stdout, h]
              | ok =>
                simp only [pipe_to_stdout]
                exact ih ws''
    | err e =>
      by_cases hbp : is_broken_pipe e = true
      · cases ei <;> simp [pipe_to_stdout, hbp, h]
      · simp only [Bool.not_eq_true] at hbp
        simp [pipe_to_stdout, hbp, h]

theorem pipe_to_stdout_mono_pipe (ei : Bool) (st : RelayState)
    (evs : List ReadEvent) (ws : List WriteResult) (h : st.pipe_done = true) :
    (pipe_to_stdout ei st evs ws).state.pipe_done = true := by
  induction evs generalizing ws with
  | nil => simp [pipe_to_stdout, h]
  | cons hd tl ih =>
    cases hd with
    | ok data =>
      cases data with
      | nil => cases ei <;> simp [pipe_to_stdout, h]
      | cons b bs =>
        cases ws with
        | nil => simp [pipe_to_stdout, h]
        | cons w ws' =>
          cases w with
          | err e => simp [pipe_to_stdout, h]
          | ok =>
            cases ws' with
            | nil => simp [pipe_to_stdout, h]
            | cons w2 ws'' =>
              cases w2 with
              | err e => simp [pipe_to_stdout, h]
              | ok =>
                simp only [pipe_to_stdout]
                exact ih ws''
    | err e =>
      by_cases hbp : is_broken_pipe e = true
      · cases ei <;> simp [pipe_to_stdout, hbp, h]
      · simp only [Bool.not_eq_true] at hbp
        simp [pipe_to_stdout, hbp, h]

end Baton

namespace Baton

theorem pipe_connect_go_limit (cap : Nat) (pre : List ConnectAttempt) :
    ∀ attempts rest, attempts + pre.length = cap → attempts < cap →
    (∀ a ∈ pre, ∃ c, a = ConnectAttempt.err c ∧ (c = 2 ∨ c = 231)) →
    pipe_connect_go true cap attempts (pre ++ rest) =
      ConnectOutcome.failed (BatonError.PollingLimitReached cap) := by
  induction pre with
  | nil =>
    intro attempts rest hlen hlt _
    simp at hlen
    omega
  | cons a pre' ih =>
    intro attempts rest hlen hlt hall
    obtain ⟨c, hac, hc⟩ := hall a (List.mem_cons_self a pre')
    subst hac
    have hretry : (c == 2 || c == 231) = true := by
      rcases hc with h | h <;> simp [h]
    by_cases hcap : cap ≤ attempts + 1
    · have : attempts + 1 = cap := by
        simp [List.length_cons] at hlen
        omega
      simp [pipe_connect_go, hretry, hcap, this]
    · have hnext : attempts + 1 + pre'.length = cap := by
        simp [List.length_cons] at hlen
        omega
      have := ih (attempts + 1) rest hnext (by omega)
        (fun a ha => hall a (List.mem_cons_of_mem _ ha))
      simp [pipe_connect_go, hretry, hcap]
      exact this

theorem assuan_connect_go_limit (cap : Nat) (pre : List TcpAttempt) :
    ∀ attempts rest, attempts + pre.length = cap → attempts < cap →
    (∀ a ∈ pre, ∃ e, a = TcpAttempt.err e) →
    assuan_connect_go true cap attempts (pre ++ rest) =
      ConnectOutcome.failed (BatonError.PollingLimitReached cap) := by
  induction pre with
  | nil =>
    intro attempts rest hlen hlt _
    simp at hlen
    omega
  | cons a pre' ih =>
    intro attempts rest hlen hlt hall
    obtain ⟨e, hae⟩ := hall a (List.mem_cons_self a pre')
    subst hae
    by_cases hcap : cap ≤ attempts + 1
    · have : attempts + 1 = cap := by
        simp [List.length_cons] at hlen
        omega
      simp [assuan_connect_go, hcap, this]
    · have hnext : attempts + 1 + pre'.length = cap := by
        simp [List.length_cons] at hlen
        omega
      have := ih (attempts + 1) rest hnext (by omega)
        (fun a ha => hall a (List.mem_cons_of_mem _ ha))
      simp [assuan_connect_go, hcap]
      exact this

end Baton

namespace Baton

theorem natDigitsAux_lt_ten (fuel : Nat) :
    ∀ n d, d ∈ natDigitsAux fuel n → d < 10 := by
  induction fuel with
  | zero => intro n d hd; simp [natDigitsAux] at hd
  | succ f ih =>
    intro n d hd
    cases n with
    | zero => simp [natDigitsAux] at hd
    | succ m =>
      simp only [natDigitsAux, List.mem_cons] at hd
      rcases hd with h | h
      · subst h; exact Nat.mod_lt _ (by omega)
      · exact ih _ _ h

theorem natDigitsAux_foldl (fuel : Nat) :
    ∀ n init, n ≤ fuel →
    List.foldl (fun a d => a * 10 + d) init (natDigitsAux fuel n).reverse =
      init * 10 ^ (natDigitsAux fuel n).length + n := by
  induction fuel with
  | zero =>
    intro n init hn
    have : n = 0 := by omega
    subst this
    simp [natDigitsAux]
  | succ f ih =>
    intro n init hn
    cases n with
    | zero => simp [natDigitsAux]
    | succ m =>
      have hq : (m + 1) / 10 ≤ f := by
        have := Nat.div_lt_self (Nat.succ_pos m) (by omega : 1 < 10)
        omega
      simp only [natDigitsAux, List.reverse_cons, List.foldl_append, List.foldl_cons,
        List.foldl_nil, List.length_cons]
      rw [ih ((m + 1) / 10) init hq]
      have hmod := Nat.div_add_mod (m + 1) 10
      ring_nf
      omega

theorem foldl_map_add48 (L : List Nat) :
    ∀ init, List.foldl (fun a b => a * 10 + (b - 48)) init (L.map (fun d => d + 48)) =
      List.foldl (fun a d => a * 10 + d) init L := by
  induction L with
  | nil => intro init; simp
  | cons d L' ih =>
    intro init
    simp only [List.map_cons, List.foldl_cons, Nat.add_sub_cancel]
    exact ih _

theorem portBytes_isDigit (p : Nat) : ∀ b ∈ portBytes p, isDigitByte b = true := by
  intro b hb
  unfold portBytes at hb
  by_cases hp : p = 0
  · simp [hp] at hb
    simp [hb, isDigitByte]
  · simp only [hp, if_false, List.mem_map, List.mem_reverse] at hb
    obtain ⟨d, hd, rfl⟩ := hb
    have := natDigitsAux_lt_ten p p d hd
    simp [isDigitByte]
    omega

theorem digitsVal_portBytes (p : Nat) : digitsVal (portBytes p) = p := by
  unfold portBytes digitsVal
  by_cases hp : p = 0
  · simp [hp]
  · simp only [hp, if_false]
    rw [foldl_map_add48]
    unfold natDigits
    rw [natDigitsAux_foldl p p 0 (le_refl p)]
    simp

theorem portBytes_ne_nil (p : Nat) : portBytes p ≠ [] := by
  unfold portBytes
  by_cases hp : p = 0
  · simp [hp]
  · simp only [hp, if_false]
    cases p with
    | zero => omega
    | succ m =>
      simp [natDigits, natDigitsAux]

theorem parse_u16_portBytes (p : Nat) (hp : p ≤ 65535) :
    parse_u16 (portBytes p) = some p := by
  have hdig := portBytes_isDigit p
  have hstrip : stripPlus (portBytes p) = portBytes p := by
    cases hpb : portBytes p with
    | nil => exact absurd hpb (portBytes_ne_nil p)
    | cons h t =>
      have : isDigitByte h = true := by
        apply hdig
        rw [hpb]
        exact List.mem_cons_self h t
      simp [isDigitByte] at this
      simp [stripPlus]
      omega
  unfold parse_u16
  rw [hstrip]
  cases hpb : portBytes p with
  | nil => exact absurd hpb (portBytes_ne_nil p)
  | cons h t =>
    have hall : (h :: t).all isDigitByte = true := by
      rw [List.all_eq_true]
      intro b hb
      apply hdig
      rw [hpb]
      exact hb
    have hval : digitsVal (h :: t) = p := by
      rw [← hpb]
      exact digitsVal_portBytes p
    simp [hall, hval, hp]

end Baton

namespace Baton

theorem utf8Valid_ascii (l : List Nat) (h : ∀ b ∈ l, b ≤ 127) :
    utf8Valid l = true := by
  unfold utf8Valid
  induction l with
  | nil => simp [utf8ValidGo]
  | cons b rest ih =>
    have hb : b ≤ 127 := h b (List.mem_cons_self b rest)
    rw [utf8ValidGo]
    rw [if_pos hb]
    exact ih (fun x hx => h x (List.mem_cons_of_mem _ hx))

theorem read_line_bytes_split (ds : List Nat) (rest : List Nat)
    (h : ∀ b ∈ ds, b ≠ 10) :
    read_line_bytes (ds ++ 10 :: rest) = (ds ++ [10], rest) := by
  induction ds with
  | nil => simp [read_line_bytes]
  | cons d ds' ih =>
    have hd : d ≠ 10 := h d (List.mem_cons_self d ds')
    simp only [List.cons_append, read_line_bytes, hd, if_false, List.append_eq]
    rw [ih (fun b hb => h b (List.mem_cons_of_mem _ hb))]

theorem dropWhile_append_all {p : Nat → Bool} (xs ys : List Nat)
    (h : ∀ x ∈ xs, p x = true) :
    List.dropWhile p (xs ++ ys) = List.dropWhile p ys := by
  induction xs with
  | nil => simp
  | cons x xs' ih =>
    have hx : p x = true := h x (List.mem_cons_self x xs')
    simp only [List.cons_append, List.dropWhile_cons, hx, if_true]
    exact ih (fun b hb => h b (List.mem_cons_of_mem _ hb))

theorem dropWhile_eq_self_of_all {p : Nat → Bool} (l : List Nat)
    (h : ∀ x ∈ l, p x = false) :
    List.dropWhile p l = l := by
  cases l with
  | nil => simp
  | cons x xs =>
    have hx : p x = false := h x (List.mem_cons_self x xs)
    simp [List.dropWhile_cons, hx]

theorem trimEndCRLF_append (ds sfx : List Nat)
    (hs : ∀ b ∈ sfx, (b == 13 || b == 10) = true)
    (hd : ∀ b ∈ ds, (b == 13 || b == 10) = false) :
    trimEndCRLF (ds ++ sfx) = ds := by
  unfold trimEndCRLF
  rw [List.reverse_append]
  rw [dropWhile_append_all _ _ (fun x hx => hs x (List.mem_reverse.mp hx))]
  rw [dropWhile_eq_self_of_all _ (fun x hx => hd x (List.mem_reverse.mp hx))]
  exact List.reverse_reverse ds

end Baton


namespace Baton

theorem pipe_to_stdout_no_exit (st : RelayState) (evs : List ReadEvent)
    (ws : List WriteResult) (c : Nat) :
    (pipe_to_stdout false st evs ws).outcome ≠ PumpOutcome.procExit c := by
  induction evs generalizing ws with
  | nil => simp [pipe_to_stdout]
  | cons hd tl ih =>
    cases hd with
    | ok data =>
      cases data with
      | nil => simp [pipe_to_stdout]
      | cons b bs =>
        cases ws with
        | nil => simp [pipe_to_stdout]
        | cons w ws' =>
          cases w with
          | err e => simp [pipe_to_stdout]
          | ok =>
            cases ws' with
            | nil => simp [pipe_to_stdout]
            | cons w2 ws'' =>
              cases w2 with
              | err e => simp [pipe_to_stdout]
              | ok =>
                simp only [pipe_to_stdout]
                exact ih ws''
    | err e =>
      by_cases hbp : is_broken_pipe e = true
      · simp [pipe_to_stdout, hbp]
      · simp only [Bool.not_eq_true] at hbp
        simp [pipe_to_stdout, hbp]

/-- C1: with `exit_on_pipe_eof` false, `run_relay` returns exactly the
outcome of Pump B (`pipe_to_stdout`), independent of the stdin events and
peer-write results that drive Pump A; that outcome is an I/O error `e` iff
the first reader-side operation to fail in a non-terminal way (a
non-broken-pipe peer-read error, or any stdout write or flush failure)
fails with `e`; and when no reader-side operation fails in a non-terminal
way, `run_relay` does not return an error: its result is clean success
(`Ok(())`) unless the scripts leave Pump B blocked. -/
theorem run_relay_returns_pumpB (cfg : Config) (pipeEvents : List ReadEvent)
    (stdoutResults : List WriteResult) (stdinEvents : List ReadEvent)
    (pipeWriteResults : List WriteResult) (h : cfg.exit_on_pipe_eof = false) :
    (run_relay cfg pipeEvents stdoutResults stdinEvents pipeWriteResults).result =
      (pipe_to_stdout false RelayState.new pipeEvents stdoutResults).outcome ∧
    (∀ e : IOError,
      (run_relay cfg pipeEvents stdoutResults stdinEvents pipeWriteResults).result =
          PumpOutcome.ret (some e) ↔
        firstReaderFailure pipeEvents stdoutResults = some e) ∧
    (firstReaderFailure pipeEvents stdoutResults = none →
      (run_relay cfg pipeEvents stdoutResults stdinEvents pipeWriteResults).result =
          PumpOutcome.ret none ∨
      (run_relay cfg pipeEvents stdoutResults stdinEvents pipeWriteResults).result =
          PumpOutcome.blocked) := by
  have hres : (run_relay cfg pipeEvents stdoutResults stdinEvents pipeWriteResults).result =
      (pipe_to_stdout false RelayState.new pipeEvents stdoutResults).outcome := by
    simp [run_relay, h]
  refine ⟨hres, ?_, ?_⟩
  · intro e
    rw [hres]
    exact pipeB_outcome_err_iff false RelayState.new pipeEvents stdoutResults e
  · intro hnone
    rw [hres]
    cases ho : (pipe_to_stdout false RelayState.new pipeEvents stdoutResults).outcome with
    | ret oe =>
      cases oe with
      | none => exact Or.inl rfl
      | some e =>
        have := (pipeB_outcome_err_iff false RelayState.new pipeEvents stdoutResults e).mp ho
        rw [hnone] at this
        exact absurd this (by simp)
    | procExit c =>
      exact absurd ho (pipe_to_stdout_no_exit RelayState.new pipeEvents stdoutResults c)
    | blocked => exact Or.inr rfl

/-- Witness for C1 at a concrete relay: one data block then peer EOF, a
Pump A script whose peer write fails, and `exit_on_pipe_eof` false. -/
theorem run_relay_returns_pumpB_witness :
    ({ pipe_name := "p", poll := false, limited_poll := false, send_zero := false,
       exit_on_pipe_eof := false, exit_on_stdin_eof := false, bg := false,
       assuan := false, verbose := false : Config }).exit_on_pipe_eof = false ∧
    (run_relay
      { pipe_name := "p", poll := false, limited_poll := false, send_zero := false,
        exit_on_pipe_eof := false, exit_on_stdin_eof := false, bg := false,
        assuan := false, verbose := false }
      [ReadEvent.ok [72], ReadEvent.ok []] [WriteResult.ok, WriteResult.ok]
      [ReadEvent.ok [1]] [WriteResult.err { kind := ErrorKind.other, raw_os_error := none }]).result =
      (pipe_to_stdout false RelayState.new [ReadEvent.ok [72], ReadEvent.ok []]
        [WriteResult.ok, WriteResult.ok]).outcome :=
  ⟨rfl,
   (run_relay_returns_pumpB _ [ReadEvent.ok [72], ReadEvent.ok []]
     [WriteResult.ok, WriteResult.ok] [ReadEvent.ok [1]]
     [WriteResult.err { kind := ErrorKind.other, raw_os_error := none }] rfl).1⟩

/-- C2: `is_broken_pipe` holds exactly when the error kind is broken-pipe
or the raw OS code is 109 or 233, and in particular a not-found error with
no raw code is not classified as broken pipe. -/
theorem is_broken_pipe_class_iff :
    (∀ e : IOError, is_broken_pipe e = true ↔
      (e.kind = ErrorKind.brokenPipe ∨ e.raw_os_error = some 109 ∨
        e.raw_os_error = some 233)) ∧
    is_broken_pipe { kind := ErrorKind.notFound, raw_os_error := none } = false := by
  constructor
  · intro e
    cases e with
    | mk k r => cases k <;> simp [is_broken_pipe]
  · decide

end Baton

namespace Baton

/-- Counterexample to C3 as stated: Pump B's outbound (stdout) write fails
with a broken-pipe-class error, yet the pump returns that error as a
failure and does not set `pipe_done`, contradicting the claim that either
pump exits cleanly and sets the flag on a broken-pipe outbound write. -/
theorem pumpB_broken_pipe_write_cex :
    is_broken_pipe { kind := ErrorKind.brokenPipe, raw_os_error := some 109 } = true ∧
    (pipe_to_stdout false RelayState.new [ReadEvent.ok [1]]
        [WriteResult.err { kind := ErrorKind.brokenPipe, raw_os_error := some 109 }]).outcome =
      PumpOutcome.ret (some { kind := ErrorKind.brokenPipe, raw_os_error := some 109 }) ∧
    (pipe_to_stdout false RelayState.new [ReadEvent.ok [1]]
        [WriteResult.err { kind := ErrorKind.brokenPipe, raw_os_error := some 109 }]).state.pipe_done =
      false := by
  decide

/-- C3 amended: only Pump A (`stdin_to_pipe`) treats a broken-pipe-class
error from its outbound write as clean termination, setting `pipe_done`
and returning success, while its non-broken-pipe write errors are returned
as failures; Pump B (`pipe_to_stdout`) returns every stdout write error as
a failure, broken-pipe-class or not, leaving `pipe_done` unchanged. -/
theorem outbound_write_error_split (sz ei : Bool) (st : RelayState) (b : Nat)
    (bs : List Nat) (evs : List ReadEvent) (ws : List WriteResult) (e : IOError)
    (hpd : st.pipe_done = false) :
    (is_broken_pipe e = true →
      stdin_to_pipe sz ei st (ReadEvent.ok (b :: bs) :: evs) (WriteResult.err e :: ws) =
        { state := { st with pipe_done := true }, outcome := PumpOutcome.ret none,
          writes := [] }) ∧
    (is_broken_pipe e = false →
      stdin_to_pipe sz ei st (ReadEvent.ok (b :: bs) :: evs) (WriteResult.err e :: ws) =
        { state := st, outcome := PumpOutcome.ret (some e), writes := [] }) ∧
    (pipe_to_stdout ei st (ReadEvent.ok (b :: bs) :: evs) (WriteResult.err e :: ws) =
      { state := st, outcome := PumpOutcome.ret (some e), writes := [] }) := by
  refine ⟨?_, ?_, ?_⟩
  · intro hbp
    simp [stdin_to_pipe, hpd, hbp]
  · intro hbp
    simp [stdin_to_pipe, hpd, hbp]
  · simp [pipe_to_stdout]

/-- Witness for the amended C3: Pump A on a broken-pipe write error (code
109) and on a not-found write error, Pump B on the same broken-pipe
error. -/
theorem outbound_write_error_split_witness :
    is_broken_pipe { kind := ErrorKind.brokenPipe, raw_os_error := some 109 } = true ∧
    RelayState.new.pipe_done = false ∧
    stdin_to_pipe true false RelayState.new [ReadEvent.ok [7]]
        [WriteResult.err { kind := ErrorKind.brokenPipe, raw_os_error := some 109 }] =
      { state := { RelayState.new with pipe_done := true },
        outcome := PumpOutcome.ret none, writes := [] } :=
  ⟨by decide, rfl,
   (outbound_write_error_split true false RelayState.new 7 [] [] []
     { kind := ErrorKind.brokenPipe, raw_os_error := some 109 } rfl).1 (by decide)⟩

/-- C4: when `CreateFileW` fails with last error `code`, `NamedPipe::connect`
fails immediately with `PipeConnection` carrying that error whenever `poll`
is off (even for the retryable codes 2 and 231) and whenever `poll` is on
but the code is not retryable; it continues into the retry loop (counter
set to 1) exactly when `poll` is on and the code is 2 or 231. -/
theorem pipe_connect_retry_gate (cfg : Config) (code : Nat)
    (rest : List ConnectAttempt) :
    (cfg.poll = false →
      NamedPipe.connect cfg (ConnectAttempt.err code :: rest) =
        ConnectOutcome.failed (BatonError.PipeConnection (ioErrFromRaw code))) ∧
    (cfg.poll = true → code ≠ 2 → code ≠ 231 →
      NamedPipe.connect cfg (ConnectAttempt.err code :: rest) =
        ConnectOutcome.failed (BatonError.PipeConnection (ioErrFromRaw code))) ∧
    (cfg.poll = true → (code = 2 ∨ code = 231) →
      NamedPipe.connect cfg (ConnectAttempt.err code :: rest) =
        pipe_connect_go cfg.poll
          (if cfg.limited_poll then MAX_POLL_ATTEMPTS else U32_MAX) 1 rest) := by
  refine ⟨?_, ?_, ?_⟩
  · intro hp
    simp [NamedPipe.connect, pipe_connect_go, hp]
  · intro hp h2 h231
    simp [NamedPipe.connect, pipe_connect_go, hp, h2, h231]
  · intro hp hcode
    have hretry : (code == 2 || code == 231) = true := by
      rcases hcode with h | h <;> simp [h]
    cases hl : cfg.limited_poll <;>
      simp [NamedPipe.connect, pipe_connect_go, hp, hretry, hl,
        MAX_POLL_ATTEMPTS, U32_MAX]

/-- Witness for C4: with polling off, a first `CreateFileW` failure with
the retryable code `FILE_NOT_FOUND` (2) still fails immediately. -/
theorem pipe_connect_retry_gate_witness :
    ({ pipe_name := "p", poll := false, limited_poll := false, send_zero := false,
       exit_on_pipe_eof := false, exit_on_stdin_eof := false, bg := false,
       assuan := false, verbose := false : Config }).poll = false ∧
    NamedPipe.connect
      { pipe_name := "p", poll := false, limited_poll := false, send_zero := false,
        exit_on_pipe_eof := false, exit_on_stdin_eof := false, bg := false,
        assuan := false, verbose := false }
      (ConnectAttempt.err 2 :: [ConnectAttempt.ok]) =
      ConnectOutcome.failed (BatonError.PipeConnection (ioErrFromRaw 2)) :=
  ⟨rfl, (pipe_connect_retry_gate _ 2 [ConnectAttempt.ok]).1 rfl⟩

end Baton

namespace Baton

/-- C5: with `poll` and `limited_poll` on, if the first 300 `CreateFileW`
calls all fail with retryable codes (2 or 231), `NamedPipe::connect`
returns `PollingLimitReached 300` without a 301st attempt (the script
beyond the 300-attempt prefix is irrelevant), and that error displays as
"Polling limit reached after 300 attempts"; with `limited_poll` off, the
cap is `u32::MAX` = 4294967295 instead of 300. -/
theorem pipe_connect_polling_limit (cfg : Config) (hp : cfg.poll = true) :
    (cfg.limited_poll = true → ∀ (pre rest : List ConnectAttempt),
      pre.length = MAX_POLL_ATTEMPTS →
      (∀ a ∈ pre, ∃ c, a = ConnectAttempt.err c ∧ (c = 2 ∨ c = 231)) →
      NamedPipe.connect cfg (pre ++ rest) =
        ConnectOutcome.failed (BatonError.PollingLimitReached 300)) ∧
    ((BatonError.PollingLimitReached 300).display =
      "Polling limit reached after 300 attempts") ∧
    (cfg.limited_poll = false → ∀ (pre rest : List ConnectAttempt),
      pre.length = U32_MAX →
      (∀ a ∈ pre, ∃ c, a = ConnectAttempt.err c ∧ (c = 2 ∨ c = 231)) →
      NamedPipe.connect cfg (pre ++ rest) =
        ConnectOutcome.failed (BatonError.PollingLimitReached U32_MAX)) := by
  refine ⟨?_, by decide, ?_⟩
  · intro hl pre rest hlen hall
    unfold NamedPipe.connect
    rw [hl, hp]
    simp only [if_true]
    have : (300 : Nat) = MAX_POLL_ATTEMPTS := rfl
    rw [this]
    exact pipe_connect_go_limit MAX_POLL_ATTEMPTS pre 0 rest (by simpa using hlen)
      (by simp [MAX_POLL_ATTEMPTS]) hall
  · intro hl pre rest hlen hall
    unfold NamedPipe.connect
    rw [hl, hp]
    simp only [Bool.false_eq_true, if_false]
    exact pipe_connect_go_limit U32_MAX pre 0 rest (by simpa using hlen)
      (by norm_num [U32_MAX]) hall

end Baton

namespace Baton

/-- Witness for C5: a concrete polling configuration and a script of 300
consecutive `FILE_NOT_FOUND` failures. -/
theorem pipe_connect_polling_limit_witness :
    NamedPipe.connect
      { pipe_name := "p", poll := true, limited_poll := true, send_zero := false,
        exit_on_pipe_eof := false, exit_on_stdin_eof := false, bg := false,
        assuan := false, verbose := false }
      (List.replicate 300 (ConnectAttempt.err 2) ++ [ConnectAttempt.ok]) =
      ConnectOutcome.failed (BatonError.PollingLimitReached 300) :=
  (pipe_connect_polling_limit _ rfl).1 rfl
    (List.replicate 300 (ConnectAttempt.err 2)) [ConnectAttempt.ok]
    (by rw [List.length_replicate]; rfl)
    (by
      intro a ha
      rw [List.eq_of_mem_replicate ha]
      exact ⟨2, rfl, Or.inl rfl⟩)

/-- C6: when Pump A reads EOF from stdin with `exit_on_stdin_eof` off, it
sets `stdin_done`, performs exactly one zero-length peer write when
`send_zero` is on (and none when it is off), ignores that write's scripted
result entirely, performs no further stdin reads or peer writes, and
returns success. -/
theorem stdin_eof_send_zero (st : RelayState) (rest : List ReadEvent)
    (w : WriteResult) (ws : List WriteResult) (hpd : st.pipe_done = false) :
    stdin_to_pipe true false st (ReadEvent.ok [] :: rest) (w :: ws) =
      { state := { st with stdin_done := true }, outcome := PumpOutcome.ret none,
        writes := [[]] } ∧
    stdin_to_pipe false false st (ReadEvent.ok [] :: rest) (w :: ws) =
      { state := { st with stdin_done := true }, outcome := PumpOutcome.ret none,
        writes := [] } := by
  constructor <;> simp [stdin_to_pipe, hpd]

/-- Witness for C6: fresh state, a failing zero-write script (the failure
is ignored), and a nonempty remaining stdin script that is never read. -/
theorem stdin_eof_send_zero_witness :
    RelayState.new.pipe_done = false ∧
    stdin_to_pipe true false RelayState.new [ReadEvent.ok [], ReadEvent.ok [9]]
        [WriteResult.err { kind := ErrorKind.brokenPipe, raw_os_error := some 109 }] =
      { state := { RelayState.new with stdin_done := true },
        outcome := PumpOutcome.ret none, writes := [[]] } :=
  ⟨rfl,
   (stdin_eof_send_zero RelayState.new [ReadEvent.ok [9]]
     (WriteResult.err { kind := ErrorKind.brokenPipe, raw_os_error := some 109 }) []
     rfl).1⟩

end Baton

namespace Baton

theorem portBytes_le127 (p : Nat) : ∀ b ∈ portBytes p, b ≤ 127 := by
  intro b hb
  have := portBytes_isDigit p b hb
  simp [isDigitByte] at this
  omega

theorem portBytes_not_crlf (p : Nat) : ∀ b ∈ portBytes p, (b == 13 || b == 10) = false := by
  intro b hb
  have := portBytes_isDigit p b hb
  simp [isDigitByte] at this
  simp
  omega

theorem portBytes_ne_10 (p : Nat) : ∀ b ∈ portBytes p, b ≠ 10 := by
  intro b hb
  have := portBytes_isDigit p b hb
  simp [isDigitByte] at this
  omega

/-- C7: parsing a rendezvous file made of the ASCII decimal digits of a
16-bit port, a newline (either a bare line feed or CR LF), and exactly 16
nonce bytes yields precisely the pair of that port and those bytes. -/
theorem parse_assuan_roundtrip (p : Nat) (hp : p ≤ 65535) (n : List Nat)
    (hn : n.length = 16) :
    parse_assuan_file (some (portBytes p ++ 10 :: n)) = Except.ok (p, n) ∧
    parse_assuan_file (some (portBytes p ++ 13 :: 10 :: n)) = Except.ok (p, n) := by
  have htake : n.take 16 = n := by rw [← hn, List.take_length]
  constructor
  · have hsplit := read_line_bytes_split (portBytes p) n (portBytes_ne_10 p)
    have hutf : utf8Valid (portBytes p ++ [10]) = true := by
      apply utf8Valid_ascii
      intro b hb
      rcases List.mem_append.mp hb with h | h
      · exact portBytes_le127 p b h
      · simp at h; omega
    have htrim : trimEndCRLF (portBytes p ++ [10]) = portBytes p := by
      apply trimEndCRLF_append
      · intro b hb; simp at hb; simp [hb]
      · exact portBytes_not_crlf p
    simp only [parse_assuan_file]
    rw [hsplit]
    simp only [hutf, htrim, parse_u16_portBytes p hp, Bool.true_eq_false, if_false]
    simp [NONCE_SIZE, hn, htake]
  · have hds : ∀ b ∈ portBytes p ++ [13], b ≠ 10 := by
      intro b hb
      rcases List.mem_append.mp hb with h | h
      · exact portBytes_ne_10 p b h
      · simp at h; omega
    have hsplit := read_line_bytes_split (portBytes p ++ [13]) n hds
    have hassoc : portBytes p ++ 13 :: 10 :: n = (portBytes p ++ [13]) ++ 10 :: n := by
      simp
    have hline : (portBytes p ++ [13]) ++ [10] = portBytes p ++ [13, 10] := by
      simp
    have hutf : utf8Valid (portBytes p ++ [13, 10]) = true := by
      apply utf8Valid_ascii
      intro b hb
      rcases List.mem_append.mp hb with h | h
      · exact portBytes_le127 p b h
      · simp at h; omega
    have htrim : trimEndCRLF (portBytes p ++ [13, 10]) = portBytes p := by
      apply trimEndCRLF_append
      · intro b hb; simp at hb; rcases hb with h | h <;> simp [h]
      · exact portBytes_not_crlf p
    simp only [parse_assuan_file]
    rw [hassoc]
    rw [hsplit, hline]
    simp only [hutf, htrim, parse_u16_portBytes p hp, Bool.true_eq_false, if_false]
    simp [NONCE_SIZE, hn, htake]

/-- Witness for C7: port 8080 and the nonce bytes 1..16, in both newline
conventions. -/
theorem parse_assuan_roundtrip_witness :
    parse_assuan_file (some (portBytes 8080 ++ 10 ::
        [1, 2, 3, 4, 5, 6, 7, 8, 9, 10, 11, 12, 13, 14, 15, 16])) =
      Except.ok (8080, [1, 2, 3, 4, 5, 6, 7, 8, 9, 10, 11, 12, 13, 14, 15, 16]) ∧
    parse_assuan_file (some (portBytes 8080 ++ 13 :: 10 ::
        [1, 2, 3, 4, 5, 6, 7, 8, 9, 10, 11, 12, 13, 14, 15, 16])) =
      Except.ok (8080, [1, 2, 3, 4, 5, 6, 7, 8, 9, 10, 11, 12, 13, 14, 15, 16]) :=
  parse_assuan_roundtrip 8080 (by norm_num)
    [1, 2, 3, 4, 5, 6, 7, 8, 9, 10, 11, 12, 13, 14, 15, 16] rfl

end Baton

namespace Baton

/-- C8: every failure of `parse_assuan_file` is an `AssuanParse` error with
a human-readable cause, and each of the enumerated conditions does fail:
an unopenable file; an unreadable (invalid UTF-8) first line; a first line
that does not parse as a decimal number (in particular one containing a
byte that is neither a digit nor a leading plus sign); a numeric value
exceeding the unsigned 16-bit range; and fewer than 16 bytes after the
port line. -/
theorem parse_assuan_failures :
    (parse_assuan_file none =
      Except.error (BatonError.AssuanParse "cannot open file")) ∧
    (∀ bytes : List Nat, utf8Valid (read_line_bytes bytes).1 = false →
      parse_assuan_file (some bytes) =
        Except.error (BatonError.AssuanParse "cannot read port line")) ∧
    (∀ bytes : List Nat, utf8Valid (read_line_bytes bytes).1 = true →
      parse_u16 (trimEndCRLF (read_line_bytes bytes).1) = none →
      parse_assuan_file (some bytes) =
        Except.error (BatonError.AssuanParse "invalid port number")) ∧
    (∀ ds : List Nat, (∃ b ∈ ds, isDigitByte b = false ∧ b ≠ 43) →
      parse_u16 ds = none) ∧
    (∀ ds : List Nat, ds.all isDigitByte = true → 65535 < digitsVal ds →
      parse_u16 ds = none) ∧
    (∀ bytes : List Nat, ∀ port : Nat,
      utf8Valid (read_line_bytes bytes).1 = true →
      parse_u16 (trimEndCRLF (read_line_bytes bytes).1) = some port →
      (read_line_bytes bytes).2.length < 16 →
      parse_assuan_file (some bytes) =
        Except.error (BatonError.AssuanParse "cannot read nonce (need 16 bytes)")) ∧
    (∀ (file : Option (List Nat)) (e : BatonError),
      parse_assuan_file file = Except.error e → ∃ s, e = BatonError.AssuanParse s) := by
  refine ⟨rfl, ?_, ?_, ?_, ?_, ?_, ?_⟩
  · intro bytes hv
    simp [parse_assuan_file, hv]
  · intro bytes hv hparse
    simp [parse_assuan_file, hv, hparse]
  · intro ds hb
    obtain ⟨b, hmem, hnd, hne43⟩ := hb
    unfold parse_u16
    have hmem' : b ∈ stripPlus ds := by
      cases ds with
      | nil => simp at hmem
      | cons d ds' =>
        by_cases hd : d = 43
        · simp only [stripPlus, hd, if_true]
          rcases List.mem_cons.mp hmem with h | h
          · exact absurd (h.trans hd) hne43
          · exact h
        · simp only [stripPlus, hd, if_false]
          exact hmem
    cases hsp : stripPlus ds with
    | nil => simp
    | cons t ts =>
      rw [hsp] at hmem'
      have : (t :: ts).all isDigitByte = false := by
        rw [Bool.eq_false_iff]
        intro hall
        rw [List.all_eq_true] at hall
        exact absurd (hall b hmem') (by simp [hnd])
      simp [this]
  · intro ds hall hbig
    unfold parse_u16
    cases ds with
    | nil => simp [digitsVal] at hbig
    | cons d ds' =>
      have hd : isDigitByte d = true := by
        rw [List.all_eq_true] at hall
        exact hall d (List.mem_cons_self d ds')
      have hd43 : d ≠ 43 := by
        simp [isDigitByte] at hd
        omega
      have hsp : stripPlus (d :: ds') = d :: ds' := by
        simp [stripPlus, hd43]
      rw [hsp]
      simp [hall, Nat.not_le.mpr hbig, Nat.lt_iff_add_one_le]
  · intro bytes port hv hparse hlen
    simp [parse_assuan_file, hv, hparse, NONCE_SIZE, hlen]
  · intro file e h
    cases file with
    | none =>
      simp [parse_assuan_file] at h
      exact ⟨"cannot open file", h.symm⟩
    | some bytes =>
      by_cases hv : utf8Valid (read_line_bytes bytes).1 = false
      · simp [parse_assuan_file, hv] at h
        exact ⟨"cannot read port line", h.symm⟩
      · simp only [Bool.not_eq_false] at hv
        cases hparse : parse_u16 (trimEndCRLF (read_line_bytes bytes).1) with
        | none =>
          simp [parse_assuan_file, hv, hparse] at h
          exact ⟨"invalid port number", h.symm⟩
        | some port =>
          by_cases hlen : (read_line_bytes bytes).2.length < NONCE_SIZE
          · simp [parse_assuan_file, hv, hparse, hlen] at h
            exact ⟨"cannot read nonce (need 16 bytes)", h.symm⟩
          · simp [parse_assuan_file, hv, hparse, hlen] at h

/-- Witness for C8 at concrete inputs: an invalid UTF-8 line, a
non-numeric line, an overflowing port, and a 3-byte nonce. -/
theorem parse_assuan_failures_witness :
    parse_assuan_file (some [255]) =
      Except.error (BatonError.AssuanParse "cannot read port line") ∧
    parse_assuan_file (some [97, 98, 10]) =
      Except.error (BatonError.AssuanParse "invalid port number") ∧
    parse_u16 [54, 53, 53, 51, 54] = none ∧
    parse_assuan_file (some [56, 10, 1, 2, 3]) =
      Except.error (BatonError.AssuanParse "cannot read nonce (need 16 bytes)") :=
  ⟨parse_assuan_failures.2.1 [255] (by decide),
   parse_assuan_failures.2.2.1 [97, 98, 10] (by decide) (by decide),
   parse_assuan_failures.2.2.2.2.1 [54, 53, 53, 51, 54] (by decide) (by decide),
   parse_assuan_failures.2.2.2.2.2.1 [56, 10, 1, 2, 3] 8 (by decide) (by decide)
     (by decide)⟩

end Baton

namespace Baton

/-- C9: the relay flags are monotone: `RelayState::new` initialises both
`stdin_done` and `pipe_done` to false, and each pump only ever raises a
flag — from any starting state, a flag that is true on entry to
`stdin_to_pipe` or `pipe_to_stdout` is still true in the final state (every
store in the source writes `true`; no path stores `false`). -/
theorem relay_flags_monotone :
    (RelayState.new.stdin_done = false ∧ RelayState.new.pipe_done = false) ∧
    (∀ (sz ei : Bool) (st : RelayState) (evs : List ReadEvent) (ws : List WriteResult),
      (st.stdin_done = true → (stdin_to_pipe sz ei st evs ws).state.stdin_done = true) ∧
      (st.pipe_done = true → (stdin_to_pipe sz ei st evs ws).state.pipe_done = true)) ∧
    (∀ (ei : Bool) (st : RelayState) (evs : List ReadEvent) (ws : List WriteResult),
      (st.stdin_done = true → (pipe_to_stdout ei st evs ws).state.stdin_done = true) ∧
      (st.pipe_done = true → (pipe_to_stdout ei st evs ws).state.pipe_done = true)) := by
  refine ⟨⟨rfl, rfl⟩, ?_, ?_⟩
  · intro sz ei st evs ws
    exact ⟨stdin_to_pipe_mono_stdin sz ei st evs ws,
           stdin_to_pipe_mono_pipe sz ei st evs ws⟩
  · intro ei st evs ws
    exact ⟨pipe_to_stdout_mono_stdin ei st evs ws,
           pipe_to_stdout_mono_pipe ei st evs ws⟩

/-- Witness for C9: a raised flag survives a concrete run of each pump. -/
theorem relay_flags_monotone_witness :
    (stdin_to_pipe true true { stdin_done := true, pipe_done := false }
      [ReadEvent.ok [5]] [WriteResult.ok]).state.stdin_done = true ∧
    (pipe_to_stdout false { stdin_done := false, pipe_done := true }
      [ReadEvent.ok [5]] [WriteResult.ok, WriteResult.ok]).state.pipe_done = true :=
  ⟨(relay_flags_monotone.2.1 true true { stdin_done := true, pipe_done := false }
      [ReadEvent.ok [5]] [WriteResult.ok]).1 rfl,
   (relay_flags_monotone.2.2 false { stdin_done := false, pipe_done := true }
      [ReadEvent.ok [5]] [WriteResult.ok, WriteResult.ok]).2 rfl⟩

/-- C10: the Assuan TCP connect loop applies no retryability
classification: with `poll` off the first connect error — of any kind or
code, including the codes 2 and 231 the named-pipe branch would retry — is
returned as `AssuanConnection`; with `poll` on every connect error is
retried (the loop proceeds with counter 1 regardless of the error), the
sleep interval constant is 200 ms, and with `limited_poll` on a run of 300
all-failing attempts returns `PollingLimitReached 300`. -/
theorem assuan_connect_no_gate (cfg : Config) (e : IOError) (rest : List TcpAttempt) :
    (cfg.poll = false →
      connect_with_retry cfg (TcpAttempt.err e :: rest) =
        ConnectOutcome.failed (BatonError.AssuanConnection e)) ∧
    (cfg.poll = true →
      connect_with_retry cfg (TcpAttempt.err e :: rest) =
        assuan_connect_go true
          (if cfg.limited_poll then MAX_POLL_ATTEMPTS else U32_MAX) 1 rest) ∧
    (cfg.poll = true → cfg.limited_poll = true →
      ∀ (pre rest2 : List TcpAttempt), pre.length = MAX_POLL_ATTEMPTS →
      (∀ a ∈ pre, ∃ e2, a = TcpAttempt.err e2) →
      connect_with_retry cfg (pre ++ rest2) =
        ConnectOutcome.failed (BatonError.PollingLimitReached 300)) ∧
    POLL_INTERVAL_MS = 200 := by
  refine ⟨?_, ?_, ?_, rfl⟩
  · intro hp
    simp [connect_with_retry, assuan_connect_go, hp]
  · intro hp
    cases hl : cfg.limited_poll <;>
      simp [connect_with_retry, assuan_connect_go, hp, hl,
        MAX_POLL_ATTEMPTS, U32_MAX]
  · intro hp hl pre rest2 hlen hall
    unfold connect_with_retry
    rw [hp, hl]
    simp only [if_true]
    have h300 : (300 : Nat) = MAX_POLL_ATTEMPTS := rfl
    rw [h300]
    exact assuan_connect_go_limit MAX_POLL_ATTEMPTS pre 0 rest2
      (by simpa using hlen) (by norm_num [MAX_POLL_ATTEMPTS]) hall

/-- Witness for C10: with polling off, a connect error whose raw code is
the pipe-retryable `FILE_NOT_FOUND` (2) is still returned immediately as
`AssuanConnection`. -/
theorem assuan_connect_no_gate_witness :
    ({ pipe_name := "f", poll := false, limited_poll := false, send_zero := false,
       exit_on_pipe_eof := false, exit_on_stdin_eof := false, bg := false,
       assuan := true, verbose := false : Config }).poll = false ∧
    connect_with_retry
      { pipe_name := "f", poll := false, limited_poll := false, send_zero := false,
        exit_on_pipe_eof := false, exit_on_stdin_eof := false, bg := false,
        assuan := true, verbose := false }
      (TcpAttempt.err (ioErrFromRaw 2) :: [TcpAttempt.ok]) =
      ConnectOutcome.failed (BatonError.AssuanConnection (ioErrFromRaw 2)) :=
  ⟨rfl, (assuan_connect_no_gate _ (ioErrFromRaw 2) [TcpAttempt.ok]).1 rfl⟩

end Baton
